import Mathlib

set_option maxRecDepth 100000

/-
Verification of `TTS/tts/datasets/__init__.py` (dataset assembly utilities
for a TTS training pipeline): `split_dataset`, `load_tts_samples`,
`load_attention_mask_meta_data` and `find_unique_chars`.

Modelling conventions
  * A sample is a Python list of strings; `item[-1]` is the speaker id and
    `item[0]` / `item[1]` the first two fields.  We model samples as
    `List String` and `item[-1]` as `getLastD` (the source only ever applies
    it to the non-empty triples produced by the formatters).
  * `np.random` is modelled by an oracle `g : Nat → Nat` of raw draws plus a
    position counter; a bounded draw `np.random.randint(0, n)` becomes
    `g pos % n` (numpy guarantees the result lies in `[0, n)`; quantifying
    over all oracles covers every possible stream).  `np.random.seed(0)`
    installs a fixed stream, which we keep as an explicit parameter `mt0`
    because the concrete MT19937 output is opaque; see
    `NpRandomState`/`split_dataset_global`.
  * The `while` loop of `split_dataset` has no bound in the source; it is
    embedded fuel-indexed (`evalLoop`), with `SplitResult.diverged` recording
    that the given fuel did not suffice.  Statements about divergence
    quantify over all fuels.
  * In-place mutation of the argument list is made observable: the `.ok`
    result carries, besides the returned eval/train lists, the final contents
    of the caller's list object (`callerItems`).
-/

namespace TTSData

/-- A sample as the formatters produce it: a Python list of string fields
`[audio_path, text, speaker_id]`, possibly extended by a trailing
attention-file field. -/
abbrev Sample := List String

/-- Python `item[-1]`: the speaker id field of a sample (last element;
defined as `""` on the empty list, which the source never passes). -/
def speakerOf (item : Sample) : String := item.getLastD ""

/-- Exchange the elements at positions `i` and `j` of a list (the single
step of numpy's in-place Fisher-Yates shuffle); out-of-range positions
leave the list unchanged. -/
def lswap {α : Type} (l : List α) (i j : Nat) : List α :=
  match l[i]?, l[j]? with
  | some x, some y => (l.set i y).set j x
  | some _, none => l
  | none, _ => l

/-- One pass of numpy's shuffle, `for i in reversed(range(1, n)):
j = randint(0, i + 1); swap l[i] l[j]`, with the draws taken from the
oracle `g` starting at position `pos`; the first argument is the current
index `i`. -/
def npShuffleAux {α : Type} (g : Nat → Nat) : Nat → Nat → List α → List α
  | 0, _, l => l
  | i + 1, pos, l => npShuffleAux g i (pos + 1) (lswap l (i + 1) (g pos % (i + 2)))

/-- `np.random.shuffle(l)` under oracle `g`: in-place Fisher-Yates from
index `len l - 1` down to `1`, consuming draws `g 0, g 1, ...`. -/
def npShuffle {α : Type} (g : Nat → Nat) (l : List α) : List α :=
  npShuffleAux g (l.length - 1) 0 l

/-- The multi-speaker branch of `split_dataset`:
`while len(items_eval) < eval_split_size: item_idx = np.random.randint(0,
len(items)); ... if speaker_counter[s] > 1: append / decrement / del`,
embedded fuel-indexed (the source's loop is unbounded).  `pool` is `items`
(already shuffled), `evl` is `items_eval`, `counter` is `speaker_counter`,
`target` is `eval_split_size`; `pos` indexes the random oracle.  `none`
means the fuel ran out with the loop still running. -/
def evalLoop (g : Nat → Nat) :
    Nat → Nat → List Sample → List Sample → (String → Nat) → Nat →
    Option (List Sample × List Sample)
  | 0, _, _, _, _, _ => none
  | fuel + 1, pos, pool, evl, counter, target =>
    if evl.length < target then
      let idx := g pos % pool.length
      let item := pool.getD idx []
      let spk := speakerOf item
      if 1 < counter spk then
        evalLoop g fuel (pos + 1) (pool.eraseIdx idx) (evl ++ [item])
          (fun s => if s = spk then counter s - 1 else counter s) target
      else
        evalLoop g fuel (pos + 1) pool evl counter target
    else
      some (evl, pool)

/-- Outcome of one call of `split_dataset`.  `assertFail` is the
`assert eval_split_size > 0` raising `AssertionError`; `diverged` records
that the stratified `while` loop was still running when the fuel ran out;
`ok evalItems trainItems callerItems` is a normal return, where
`callerItems` is the final contents of the caller's (mutated in place)
argument list. -/
inductive SplitResult
  | assertFail
  | diverged
  | ok (evalItems trainItems callerItems : List Sample)
deriving DecidableEq

def SplitResult.isOk : SplitResult → Bool
  | .ok _ _ _ => true
  | _ => false

def SplitResult.evalItemsOf : SplitResult → List Sample
  | .ok e _ _ => e
  | _ => []

def SplitResult.trainItemsOf : SplitResult → List Sample
  | .ok _ t _ => t
  | _ => []

def SplitResult.callerItemsOf : SplitResult → List Sample
  | .ok _ _ c => c
  | _ => []

/-- `split_dataset(items)` from `TTS/tts/datasets/__init__.py`, under random
oracle `g` (the stream installed by `np.random.seed(0)`) and `fuel` bound on
the unbounded source loop:

  speakers = [item[-1] for item in items]
  is_multi_speaker = len(set(speakers)) > 1
  eval_split_size = min(500, int(len(items) * 0.01))
  assert eval_split_size > 0, ...
  np.random.seed(0); np.random.shuffle(items)
  if is_multi_speaker:  rejection-sampling loop (evalLoop); return items_eval, items
  return items[:eval_split_size], items[eval_split_size:]

`int(len(items) * 0.01)` is modelled as `len items / 100` (Nat division),
which agrees with the float computation for every corpus size below 10^14.
In the multi-speaker branch the returned train list IS the caller's list
(`callerItems = trainItems`); in the single-speaker branch the two returned
lists are fresh slices and the caller's list holds the shuffled items. -/
def split_dataset (g : Nat → Nat) (fuel : Nat) (items : List Sample) :
    SplitResult :=
  if 0 < min 500 (items.length / 100) then
    if 1 < (items.map speakerOf).toFinset.card then
      match evalLoop g fuel (items.length - 1) (npShuffle g items) []
          (fun s => ((npShuffle g items).map speakerOf).count s)
          (min 500 (items.length / 100)) with
      | none => .diverged
      | some et => .ok et.1 et.2 et.2
    else
      .ok ((npShuffle g items).take (min 500 (items.length / 100)))
        ((npShuffle g items).drop (min 500 (items.length / 100)))
        (npShuffle g items)
  else .assertFail

/-- The process-wide `np.random` generator state: the stream of raw draws
the generator will produce from now on. -/
structure NpRandomState where
  stream : Nat → Nat

/-- `np.random.seed(s)` discards the ambient generator state and installs
the stream determined by the seed alone; `seedStream` is that stream (for
`split_dataset`, the output of MT19937 seeded with 0). -/
def npSeed (seedStream : Nat → Nat) (_ambient : NpRandomState) : NpRandomState :=
  ⟨seedStream⟩

/-- `split_dataset` as invoked in process context: `ambient` is the global
`np.random` state at call time, `mt0` the stream that `np.random.seed(0)`
installs.  The source reseeds before any draw, so the ambient state is
replaced by `npSeed mt0 ambient` and every draw comes from `mt0`. -/
def split_dataset_global (mt0 : Nat → Nat) (ambient : NpRandomState)
    (fuel : Nat) (items : List Sample) : SplitResult :=
  split_dataset (npSeed mt0 ambient).stream fuel items

/-- Divergence of `split_dataset` on a given input: whatever stream
`np.random.seed(0)` produces and however long the rejection-sampling loop
runs, the call is still inside the loop (it never returns and never raises). -/
def divergesAlways (items : List Sample) : Prop :=
  ∀ (g : Nat → Nat) (fuel : Nat), split_dataset g fuel items = SplitResult.diverged

/-- A concrete 100-sample corpus with two speakers, 50 samples each. -/
def twoSpeakerCorpus : List Sample :=
  List.replicate 50 ["a"] ++ List.replicate 50 ["b"]

/-- A concrete 100-sample single-speaker corpus. -/
def singleSpeakerCorpus : List Sample :=
  List.replicate 100 ["x.wav", "some text", "spk"]

/-- A concrete 100-sample corpus with 100 distinct speakers: the eval
target is `min 500 (100 / 100) = 1` but every speaker has exactly one
sample, so the headroom (samples beyond one per speaker) is 0. -/
def hundredSpeakers : List Sample :=
  (List.range 100).map (fun i => [Nat.repr i])

/-- Python exception outcomes of the aggregator (modulo message text). -/
inductive PyError
  | nameError (name : String)
  | valueError
  | keyError (key : String)
deriving DecidableEq

/-- One entry of `config.datasets`: `{name, path, meta_file_train,
meta_file_val, meta_file_attn_mask}`.  The `Option` fields model Python
falsy (None/empty) versus set values. -/
structure DatasetCfg where
  name : String
  path : String
  meta_file_train : String
  meta_file_val : Option String
  meta_file_attn_mask : Option String
deriving DecidableEq

/-- The Coqpit config as `load_tts_samples` reads it: `datasets = none`
models a config without a "datasets" key.  (The optional
`symbol_embedding_filename` handling before the corpus loop only fills
`preprocessor_args` and is skipped when the key is absent, as in every
config modelled here.) -/
structure Config where
  datasets : Option (List DatasetCfg)
deriving DecidableEq

/-- `load_tts_samples(config, eval_split=True, formatter=None)`.  The
source returns `(None, None)` when the config has no "datasets" key, and
runs a loop over `config.datasets` otherwise (so an empty list yields the
initial accumulators `([], [])`, or `([], None)` without an eval split).
For a non-empty `datasets` the first statements of the loop body are

    name = dataset["name"]; root_path = dataset["path"]
    formatter_args["root_path"] = root_path

and the name `formatter_args` is bound nowhere in the function (it
initialises only `preprocessor_args = {}`) nor by the star-imported
formatter/dataset modules, which per the spec supply the per-corpus
formatter callables and nothing else.  CPython therefore raises
`NameError: name 'formatter_args' is not defined` on the first iteration,
before any sample, split or attention data is produced.  (The function's
docstring still contains an unresolved-merge marker `>>>>>>> dev`.) -/
def load_tts_samples (cfg : Config) (eval_split : Bool) :
    Except PyError (Option (List Sample) × Option (List Sample)) :=
  match cfg.datasets with
  | none => Except.ok (none, none)
  | some ds =>
    match ds with
    | [] => Except.ok (some [], if eval_split then some [] else none)
    | _ :: _ => Except.error (PyError.nameError "formatter_args")

/-- Python `f.readlines()` on a file whose contents are `s`: the lines of
`s`, each keeping its trailing newline; a final chunk without a newline is
kept as well. -/
def pyReadlines (s : String) : List String :=
  let step := fun (acc : List String × String) (c : Char) =>
    if c = '\n' then (acc.1 ++ [acc.2.push c], "") else (acc.1, acc.2.push c)
  let r := s.toList.foldl step ([], "")
  if r.2 = "" then r.1 else r.1 ++ [r.2]

/-- Python `s.split(sep)` for a one-character separator: split at every
occurrence, keeping empty fields (`"a||b" -> ["a", "", "b"]`,
`"" -> [""]`). -/
def pySplitChar (sep : Char) (s : String) : List String :=
  let step := fun (acc : List String × String) (c : Char) =>
    if c = sep then (acc.1 ++ [acc.2], "") else (acc.1, acc.2.push c)
  let r := s.toList.foldl step ([], "")
  r.1 ++ [r.2]

/-- The loop body of `load_attention_mask_meta_data`:
`wav_file, attn_file = line.split("|")` destructures each line and raises
`ValueError` at the first line that does not split into exactly two
fields. -/
def loadAttnLines : List String → Except PyError (List (String × String))
  | [] => Except.ok []
  | line :: rest =>
    match pySplitChar '|' line with
    | [wav_file, attn_file] =>
      match loadAttnLines rest with
      | Except.ok tail => Except.ok ((wav_file, attn_file) :: tail)
      | Except.error e => Except.error e
    | _ => Except.error PyError.valueError

/-- `load_attention_mask_meta_data(metafile_path)` with the file's
contents given as a string (the scoped open/readlines is the file read):
pairs `(wav_file, attn_file)` per line, `attn_file` keeping its trailing
newline (callers `.strip()` it). -/
def load_attention_mask_meta_data (contents : String) :
    Except PyError (List (String × String)) :=
  loadAttnLines (pyReadlines contents)

/-- Python `str.islower()` on a single character, restricted to the
Latin-1 range the analysed texts draw from: ASCII a-z and the Latin-1
lowercase letters (U+00AA, U+00B5, U+00BA, U+00DF-U+00FF except the
division sign U+00F7) are lowercase. -/
def pyIslower (c : Char) : Bool :=
  (97 ≤ c.toNat && c.toNat ≤ 122) ||
    c.toNat == 0xAA || c.toNat == 0xB5 || c.toNat == 0xBA ||
    (0xDF ≤ c.toNat && c.toNat ≤ 0xFF && c.toNat != 0xF7)

/-- Python `str.lower()` on a single character, restricted to the Latin-1
range: maps A-Z and À-Þ (except the multiplication sign ×) down by 0x20
and leaves everything else (including the already-lowercase é) unchanged. -/
def pyLower (c : Char) : Char :=
  if 65 ≤ c.toNat && c.toNat ≤ 90 then Char.ofNat (c.toNat + 32)
  else if 0xC0 ≤ c.toNat && c.toNat ≤ 0xDE && c.toNat != 0xD7 then
    Char.ofNat (c.toNat + 32)
  else c

/-- `find_unique_chars(data_samples)`:

    texts = "".join(item[0] for item in data_samples)
    chars = set(texts)
    lower_chars = filter(lambda c: c.islower(), chars)
    chars_force_lower = set([c.lower() for c in chars])

The source prints `chars` and `lower_chars` and returns
`chars_force_lower`; the embedding returns the triple
`(chars, lower_chars, chars_force_lower)` so that the printed diagnostics
are statable. -/
def find_unique_chars (data_samples : List Sample) :
    Finset Char × Finset Char × Finset Char :=
  let texts := String.join (data_samples.map (fun item => item.headD ""))
  let chars := texts.toList.toFinset
  let lower_chars := chars.filter (fun c => pyIslower c)
  let chars_force_lower := chars.image pyLower
  (chars, lower_chars, chars_force_lower)

/-- The two-sample input of the character-census claim: the first fields
are the texts `"abcABC"` and `"é"`. -/
def censusSamples : List Sample :=
  [["abcABC", "w1.wav", "s"], ["é", "w2.wav", "s"]]

/-- A config declaring two corpora with distinct registered formatters. -/
def twoCorpusConfig : Config :=
  ⟨some [⟨"ljspeech", "/data/lj", "metadata.csv", none, none⟩,
    ⟨"vctk", "/data/vctk", "meta.txt", none, none⟩]⟩

/-- A config with one corpus declaring an alignment-mask manifest. -/
def attnMaskConfig : Config :=
  ⟨some [⟨"ljspeech", "/data/lj", "metadata.csv", none, some "attn_meta.txt"⟩]⟩

/-- Two corpora, the second declaring an alignment-mask manifest. -/
def twoCorpusAttnConfig : Config :=
  ⟨some [⟨"ljspeech", "/data/lj", "metadata.csv", none, none⟩,
    ⟨"vctk", "/data/vctk", "meta.txt", none, some "attn_meta.txt"⟩]⟩

theorem cons_set_perm {α : Type} :
    ∀ (tl : List α) (m : Nat) (a y : α), tl[m]? = some y →
      List.Perm (y :: tl.set m a) (a :: tl)
  | [], _, _, _, h => by simp at h
  | b :: tl', 0, a, y, h => by
    simp only [List.getElem?_cons_zero] at h
    injection h with hb
    subst hb
    simpa [List.set] using List.Perm.swap a b tl'
  | b :: tl', m + 1, a, y, h => by
    simp only [List.getElem?_cons_succ] at h
    have ih := cons_set_perm tl' m a y h
    have h1 : List.Perm (y :: b :: tl'.set m a) (b :: y :: tl'.set m a) :=
      List.Perm.swap b y _
    have h2 : List.Perm (b :: y :: tl'.set m a) (b :: a :: tl') := ih.cons b
    have h3 : List.Perm (b :: a :: tl') (a :: b :: tl') := List.Perm.swap a b _
    simpa [List.set] using (h1.trans h2).trans h3

theorem lswap_perm {α : Type} :
    ∀ (l : List α) (i j : Nat), List.Perm (lswap l i j) l
  | [], i, _ => by simp [lswap]
  | a :: tl, 0, 0 => by simp [lswap, List.set]
  | a :: tl, 0, k + 1 => by
    cases h : tl[k]? with
    | none => simp [lswap, h]
    | some y =>
      simp only [lswap, List.getElem?_cons_zero, List.getElem?_cons_succ, h, List.set]
      exact cons_set_perm tl k a y h
  | a :: tl, m + 1, 0 => by
    cases h : tl[m]? with
    | none => simp [lswap, h]
    | some x =>
      simp only [lswap, List.getElem?_cons_zero, List.getElem?_cons_succ, h, List.set]
      exact cons_set_perm tl m a x h
  | a :: tl, m + 1, k + 1 => by
    cases hx : tl[m]? with
    | none => simp [lswap, hx]
    | some x =>
      cases hy : tl[k]? with
      | none => simp [lswap, hx, hy]
      | some y =>
        have ih := lswap_perm tl m k
        simp only [lswap, hx, hy] at ih
        simp only [lswap, List.getElem?_cons_succ, hx, hy, List.set]
        exact ih.cons a

theorem npShuffleAux_perm {α : Type} (g : Nat → Nat) :
    ∀ (i pos : Nat) (l : List α), List.Perm (npShuffleAux g i pos l) l
  | 0, _, l => List.Perm.refl l
  | i + 1, pos, l =>
    (npShuffleAux_perm g i (pos + 1) _).trans (lswap_perm l (i + 1) (g pos % (i + 2)))

/-- The embedded shuffle permutes its input, whatever the random draws. -/
theorem npShuffle_perm {α : Type} (g : Nat → Nat) (l : List α) :
    List.Perm (npShuffle g l) l :=
  npShuffleAux_perm g (l.length - 1) 0 l

theorem npShuffle_length {α : Type} (g : Nat → Nat) (l : List α) :
    (npShuffle g l).length = l.length :=
  (npShuffle_perm g l).length_eq

theorem evalLoop_succ (g : Nat → Nat) (fuel pos : Nat) (pool evl : List Sample)
    (counter : String → Nat) (target : Nat) :
    evalLoop g (fuel + 1) pos pool evl counter target =
      if evl.length < target then
        if 1 < counter (speakerOf (pool.getD (g pos % pool.length) [])) then
          evalLoop g fuel (pos + 1) (pool.eraseIdx (g pos % pool.length))
            (evl ++ [pool.getD (g pos % pool.length) []])
            (fun s => if s = speakerOf (pool.getD (g pos % pool.length) [])
              then counter s - 1 else counter s) target
        else evalLoop g fuel (pos + 1) pool evl counter target
      else some (evl, pool) := rfl

theorem getD_cons_eraseIdx_perm {α : Type} :
    ∀ (l : List α) (i : Nat), i < l.length → ∀ d : α,
      List.Perm (l.getD i d :: l.eraseIdx i) l
  | [], _, h, _ => absurd h (by simp)
  | a :: tl, 0, _, d => by simp [List.eraseIdx]
  | a :: tl, i + 1, h, d => by
    have h' : i < tl.length := by simpa using h
    have ih := getD_cons_eraseIdx_perm tl i h' d
    have hswap : List.Perm (tl.getD i d :: a :: tl.eraseIdx i)
        (a :: tl.getD i d :: tl.eraseIdx i) := List.Perm.swap a (tl.getD i d) _
    simpa [List.eraseIdx] using hswap.trans (ih.cons a)

/-- Removing the sample at a valid index removes exactly one occurrence of
its speaker from the speaker multiset. -/
theorem count_speaker_eraseIdx (pool : List Sample) (idx : Nat)
    (h : idx < pool.length) (s : String) :
    List.count s (pool.map speakerOf) =
      List.count s ((pool.eraseIdx idx).map speakerOf) +
        (if speakerOf (pool.getD idx []) = s then 1 else 0) := by
  have hp := (getD_cons_eraseIdx_perm pool idx h []).map speakerOf
  have hcount := hp.count_eq s
  rw [List.map_cons, List.count_cons] at hcount
  rw [← hcount]
  simp [beq_iff_eq]

/-- A speaker with a positive count has a sample in the pool, so the pool
is non-empty and the drawn index is in range. -/
theorem pool_pos_of_count (pool : List Sample) (s : String)
    (h : 0 < List.count s (pool.map speakerOf)) : 0 < pool.length := by
  rcases pool with _ | ⟨a, tl⟩
  · simp at h
  · simp

/-- Invariant of the rejection-sampling loop: a speaker present in the pool
when the loop starts is still present in the returned train list.  The
hypothesis ties `speaker_counter` to the actual per-speaker counts of the
pool, as the source establishes before the loop. -/
theorem evalLoop_retains_speakers (g : Nat → Nat) :
    ∀ (fuel pos : Nat) (pool evl : List Sample) (counter : String → Nat)
      (target : Nat) (e t : List Sample),
      (∀ s, counter s = List.count s (pool.map speakerOf)) →
      evalLoop g fuel pos pool evl counter target = some (e, t) →
      ∀ s, 0 < List.count s (pool.map speakerOf) →
        0 < List.count s (t.map speakerOf) := by
  intro fuel
  induction fuel with
  | zero =>
    intro pos pool evl counter target e t _ hrun
    simp [evalLoop] at hrun
  | succ n ih =>
    intro pos pool evl counter target e t hc hrun s hs
    rw [evalLoop_succ] at hrun
    by_cases hlen : evl.length < target
    · rw [if_pos hlen] at hrun
      by_cases hcnt : 1 < counter (speakerOf (pool.getD (g pos % pool.length) []))
      · rw [if_pos hcnt] at hrun
        have hcnt' := hcnt
        rw [hc] at hcnt'
        have hpool : 0 < pool.length :=
          pool_pos_of_count pool _ (Nat.lt_of_lt_of_le Nat.zero_lt_one hcnt'.le)
        have hidx : g pos % pool.length < pool.length := Nat.mod_lt _ hpool
        have herase := count_speaker_eraseIdx pool (g pos % pool.length) hidx
        refine ih (pos + 1) _ _ _ _ _ _ ?_ hrun s ?_
        · intro s'
          have := herase s'
          by_cases hss : s' = speakerOf (pool.getD (g pos % pool.length) [])
          · rw [if_pos hss, hc s', hss] at *
            have h2 := herase (speakerOf (pool.getD (g pos % pool.length) []))
            rw [if_pos rfl] at h2
            omega
          · have h2 := herase s'
            rw [if_neg (fun hees => hss (hees.symm))] at h2
            simp only [if_neg hss, hc s']
            omega
        · have h2 := herase s
          by_cases hss : speakerOf (pool.getD (g pos % pool.length) []) = s
          · rw [if_pos hss] at h2
            rw [hss] at hcnt'
            omega
          · rw [if_neg hss] at h2
            omega
      · rw [if_neg hcnt] at hrun
        exact ih (pos + 1) pool evl counter target e t hc hrun s hs
    · rw [if_neg hlen] at hrun
      injection hrun with hpair
      have he : evl = e := congrArg Prod.fst hpair
      have ht : pool = t := congrArg Prod.snd hpair
      rw [← ht]
      exact hs

/-- The decremented `speaker_counter` again matches the per-speaker counts
of the pool after the selected sample is deleted. -/
theorem counter_eraseIdx_invariant (pool : List Sample) (counter : String → Nat)
    (idx : Nat) (h : idx < pool.length)
    (hc : ∀ s, counter s = List.count s (pool.map speakerOf)) :
    ∀ s, (if s = speakerOf (pool.getD idx []) then counter s - 1 else counter s)
      = List.count s ((pool.eraseIdx idx).map speakerOf) := by
  intro s
  have h2 := count_speaker_eraseIdx pool idx h s
  by_cases hss : s = speakerOf (pool.getD idx [])
  · rw [if_pos hss]
    rw [if_pos hss.symm] at h2
    rw [hc s]
    omega
  · rw [if_neg hss]
    rw [if_neg (fun hees => hss hees.symm)] at h2
    rw [hc s]
    omega

/-- Deleting a sample whose speaker occurs at least twice does not change
the set of distinct speakers of the pool. -/
theorem headroom_eraseIdx (pool : List Sample) (idx : Nat) (h : idx < pool.length)
    (hmem : 1 < List.count (speakerOf (pool.getD idx [])) (pool.map speakerOf)) :
    ((pool.eraseIdx idx).map speakerOf).toFinset = (pool.map speakerOf).toFinset := by
  have hp := (getD_cons_eraseIdx_perm pool idx h []).map speakerOf
  have hfin := List.toFinset_eq_of_perm _ _ hp
  rw [List.map_cons, List.toFinset_cons] at hfin
  have hcount := count_speaker_eraseIdx pool idx h (speakerOf (pool.getD idx []))
  rw [if_pos rfl] at hcount
  have hpos : 0 < List.count (speakerOf (pool.getD idx []))
      ((pool.eraseIdx idx).map speakerOf) := by omega
  rw [← hfin, Finset.insert_eq_self.mpr (List.mem_toFinset.mpr
    (List.count_pos_iff.mp hpos))]

/-- Invariant of the rejection-sampling loop: each accepted sample grows the
eval list by one and shrinks the headroom (pool size minus number of
distinct speakers) by one, so when the target exceeds
`evl.length + headroom` the loop never exits, whatever the draws and
however much fuel it is given. -/
theorem evalLoop_none_of_headroom (g : Nat → Nat) :
    ∀ (fuel pos : Nat) (pool evl : List Sample) (counter : String → Nat)
      (target : Nat),
      (∀ s, counter s = List.count s (pool.map speakerOf)) →
      evl.length + (pool.length - (pool.map speakerOf).toFinset.card) < target →
      evalLoop g fuel pos pool evl counter target = none := by
  intro fuel
  induction fuel with
  | zero =>
    intro pos pool evl counter target _ _
    simp [evalLoop]
  | succ n ih =>
    intro pos pool evl counter target hc hr
    rw [evalLoop_succ]
    have hlen : evl.length < target := by omega
    rw [if_pos hlen]
    by_cases hcnt : 1 < counter (speakerOf (pool.getD (g pos % pool.length) []))
    · rw [if_pos hcnt]
      have hcnt' := hcnt
      rw [hc] at hcnt'
      have hpool : 0 < pool.length := pool_pos_of_count pool
        (speakerOf (pool.getD (g pos % pool.length) [])) (by omega)
      have hidx : g pos % pool.length < pool.length := Nat.mod_lt _ hpool
      have hfin := headroom_eraseIdx pool (g pos % pool.length) hidx hcnt'
      have hlen' : (pool.eraseIdx (g pos % pool.length)).length = pool.length - 1 :=
        List.length_eraseIdx_of_lt hidx
      have hcardle : (pool.map speakerOf).toFinset.card ≤ pool.length - 1 := by
        have h1 := List.toFinset_card_le ((pool.eraseIdx (g pos % pool.length)).map speakerOf)
        rw [hfin, List.length_map, hlen'] at h1
        exact h1
      apply ih
      · exact counter_eraseIdx_invariant pool counter _ hidx hc
      · rw [hlen', hfin, List.length_append]
        simp only [List.length_cons, List.length_nil]
        omega
    · rw [if_neg hcnt]
      exact ih (pos + 1) pool evl counter target hc hr

/-- Invariant of the rejection-sampling loop: on a normal exit the eval list
has exactly the target length, samples are conserved between the pool and
the eval list, and the final pool is a sublist of the initial pool (each
step deletes one element in place). -/
theorem evalLoop_ok_shape (g : Nat → Nat) :
    ∀ (fuel pos : Nat) (pool evl : List Sample) (counter : String → Nat)
      (target : Nat) (e t : List Sample),
      (∀ s, counter s = List.count s (pool.map speakerOf)) →
      evl.length ≤ target →
      evalLoop g fuel pos pool evl counter target = some (e, t) →
      e.length = target ∧ t.length + e.length = pool.length + evl.length ∧
        List.Sublist t pool := by
  intro fuel
  induction fuel with
  | zero =>
    intro pos pool evl counter target e t _ _ hrun
    simp [evalLoop] at hrun
  | succ n ih =>
    intro pos pool evl counter target e t hc hle hrun
    rw [evalLoop_succ] at hrun
    by_cases hlen : evl.length < target
    · rw [if_pos hlen] at hrun
      by_cases hcnt : 1 < counter (speakerOf (pool.getD (g pos % pool.length) []))
      · rw [if_pos hcnt] at hrun
        have hcnt' := hcnt
        rw [hc] at hcnt'
        have hpool : 0 < pool.length := pool_pos_of_count pool
          (speakerOf (pool.getD (g pos % pool.length) [])) (by omega)
        have hidx : g pos % pool.length < pool.length := Nat.mod_lt _ hpool
        have hlen' : (pool.eraseIdx (g pos % pool.length)).length = pool.length - 1 :=
          List.length_eraseIdx_of_lt hidx
        obtain ⟨h1, h2, h3⟩ := ih (pos + 1) _ _ _ target e t
          (counter_eraseIdx_invariant pool counter _ hidx hc)
          (by rw [List.length_append]; simp only [List.length_cons, List.length_nil]; omega)
          hrun
        refine ⟨h1, ?_, h3.trans (List.eraseIdx_sublist pool (g pos % pool.length))⟩
        rw [hlen', List.length_append] at h2
        simp only [List.length_cons, List.length_nil] at h2
        omega
      · rw [if_neg hcnt] at hrun
        exact ih (pos + 1) pool evl counter target e t hc hle hrun
    · rw [if_neg hlen] at hrun
      injection hrun with hpair
      have he : evl = e := congrArg Prod.fst hpair
      have ht : pool = t := congrArg Prod.snd hpair
      subst he
      subst ht
      exact ⟨by omega, by omega, List.Sublist.refl pool⟩

/-- C4: on a corpus with fewer than 100 samples the eval target
`min(500, int(0.01 * N))` is 0, and `split_dataset` fails the
`assert eval_split_size > 0` immediately, returning no split. -/
theorem split_dataset_small_corpus_fails (g : Nat → Nat) (fuel : Nat)
    (items : List Sample) (h : items.length < 100) :
    split_dataset g fuel items = SplitResult.assertFail := by
  have h0 : items.length / 100 = 0 := Nat.div_eq_of_lt h
  unfold split_dataset
  rw [h0]
  simp

theorem split_dataset_small_corpus_fails_witness :
    ([["x.wav", "t", "s"]] : List Sample).length < 100 ∧
      split_dataset (fun _ => 0) 3 [["x.wav", "t", "s"]] = SplitResult.assertFail :=
  ⟨by decide, split_dataset_small_corpus_fails (fun _ => 0) 3 [["x.wav", "t", "s"]]
    (by decide)⟩

/-- C5: `split_dataset` is deterministic: it reseeds the global generator
with the fixed seed 0 before any draw, so the ambient `np.random` state at
call time is irrelevant and two invocations on the same sample list (with
the same loop bound) return identical results. -/
theorem split_dataset_deterministic (mt0 : Nat → Nat)
    (ambient ambient' : NpRandomState) (fuel : Nat) (items : List Sample) :
    split_dataset_global mt0 ambient fuel items =
      split_dataset_global mt0 ambient' fuel items := rfl

/-- C1: on a multi-speaker input on which `split_dataset` returns, every
speaker with at least two samples in the input keeps at least one sample
in the returned training list: the loop guard
`speaker_counter[s] > 1` refuses to move a speaker's last remaining
sample into eval. -/
theorem split_dataset_retains_speakers (g : Nat → Nat) (fuel : Nat)
    (items : List Sample) (s : String)
    (hok : (split_dataset g fuel items).isOk = true)
    (hmulti : 1 < (items.map speakerOf).toFinset.card)
    (hs : 2 ≤ List.count s (items.map speakerOf)) :
    1 ≤ List.count s (((split_dataset g fuel items).trainItemsOf).map speakerOf) := by
  by_cases h0 : 0 < min 500 (items.length / 100)
  · unfold split_dataset at hok ⊢
    rw [if_pos h0, if_pos hmulti] at hok ⊢
    cases hloop : evalLoop g fuel (items.length - 1) (npShuffle g items) []
        (fun s' => List.count s' ((npShuffle g items).map speakerOf))
        (min 500 (items.length / 100)) with
    | none =>
      rw [hloop] at hok
      exact Bool.noConfusion hok
    | some et =>
      have hcnt := ((npShuffle_perm g items).map speakerOf).count_eq s
      have hret := evalLoop_retains_speakers g fuel (items.length - 1)
        (npShuffle g items) []
        (fun s' => List.count s' ((npShuffle g items).map speakerOf))
        (min 500 (items.length / 100)) et.1 et.2
        (fun _ => rfl) (by rw [hloop]) s (by omega)
      exact hret
  · unfold split_dataset at hok
    rw [if_neg h0] at hok
    exact Bool.noConfusion hok

theorem split_dataset_retains_speakers_witness :
    (split_dataset (fun _ => 0) 5 twoSpeakerCorpus).isOk = true ∧
      1 < (twoSpeakerCorpus.map speakerOf).toFinset.card ∧
      2 ≤ List.count "a" (twoSpeakerCorpus.map speakerOf) ∧
      1 ≤ List.count "a"
        (((split_dataset (fun _ => 0) 5 twoSpeakerCorpus).trainItemsOf).map speakerOf) :=
  ⟨by decide, by decide, by decide,
    split_dataset_retains_speakers (fun _ => 0) 5 twoSpeakerCorpus "a"
      (by decide) (by decide) (by decide)⟩

/-- C2: on a single-speaker corpus the split is the plain slice of the
shuffled list: eval gets the first `min 500 (N / 100)` shuffled samples,
train the rest, and together they are a permutation of (hence set-equal
to) the input. -/
theorem split_dataset_single_speaker_split (g : Nat → Nat) (fuel : Nat)
    (items : List Sample) (sid : String)
    (hall : ∀ item ∈ items, speakerOf item = sid)
    (hk : 0 < items.length / 100) :
    split_dataset g fuel items =
      SplitResult.ok ((npShuffle g items).take (min 500 (items.length / 100)))
        ((npShuffle g items).drop (min 500 (items.length / 100)))
        (npShuffle g items) ∧
    ((npShuffle g items).take (min 500 (items.length / 100))).length =
      min 500 (items.length / 100) ∧
    ((npShuffle g items).drop (min 500 (items.length / 100))).length =
      items.length - min 500 (items.length / 100) ∧
    ((npShuffle g items).take (min 500 (items.length / 100)) ++
        (npShuffle g items).drop (min 500 (items.length / 100))).toFinset =
      items.toFinset := by
  have h0 : 0 < min 500 (items.length / 100) := by
    have : (0 : Nat) < 500 := by omega
    omega
  have hsub : (items.map speakerOf).toFinset ⊆ {sid} := by
    intro x hx
    rw [List.mem_toFinset] at hx
    obtain ⟨item, hitem, hfx⟩ := List.mem_map.mp hx
    rw [← hfx, hall item hitem]
    exact Finset.mem_singleton_self sid
  have hmulti : ¬ 1 < (items.map speakerOf).toFinset.card := by
    have hcard := Finset.card_le_card hsub
    rw [Finset.card_singleton] at hcard
    omega
  have hklen : min 500 (items.length / 100) ≤ items.length :=
    le_trans (min_le_right _ _) (Nat.div_le_self _ _)
  refine ⟨?_, ?_, ?_, ?_⟩
  · unfold split_dataset
    rw [if_pos h0, if_neg hmulti]
  · rw [List.length_take, npShuffle_length]
    omega
  · rw [List.length_drop, npShuffle_length]
  · rw [List.take_append_drop]
    exact List.toFinset_eq_of_perm _ _ (npShuffle_perm g items)

theorem split_dataset_single_speaker_split_witness :
    (∀ item ∈ singleSpeakerCorpus, speakerOf item = "spk") ∧
      0 < singleSpeakerCorpus.length / 100 ∧
      (split_dataset (fun _ => 0) 3 singleSpeakerCorpus =
        SplitResult.ok
          ((npShuffle (fun _ => 0) singleSpeakerCorpus).take
            (min 500 (singleSpeakerCorpus.length / 100)))
          ((npShuffle (fun _ => 0) singleSpeakerCorpus).drop
            (min 500 (singleSpeakerCorpus.length / 100)))
          (npShuffle (fun _ => 0) singleSpeakerCorpus) ∧
      ((npShuffle (fun _ => 0) singleSpeakerCorpus).take
          (min 500 (singleSpeakerCorpus.length / 100))).length =
        min 500 (singleSpeakerCorpus.length / 100) ∧
      ((npShuffle (fun _ => 0) singleSpeakerCorpus).drop
          (min 500 (singleSpeakerCorpus.length / 100))).length =
        singleSpeakerCorpus.length - min 500 (singleSpeakerCorpus.length / 100) ∧
      ((npShuffle (fun _ => 0) singleSpeakerCorpus).take
          (min 500 (singleSpeakerCorpus.length / 100)) ++
          (npShuffle (fun _ => 0) singleSpeakerCorpus).drop
            (min 500 (singleSpeakerCorpus.length / 100))).toFinset =
        singleSpeakerCorpus.toFinset) :=
  ⟨by decide, by decide,
    split_dataset_single_speaker_split (fun _ => 0) 3 singleSpeakerCorpus "spk"
      (by decide) (by decide)⟩

/-- Helper for the unreachable-target analysis: on a multi-speaker corpus
whose eval target exceeds the headroom (input size minus number of
distinct speakers), `split_dataset` is still inside its `while` loop
whatever the draws and however much fuel it is given. -/
theorem split_dataset_diverges_of_headroom (g : Nat → Nat) (fuel : Nat)
    (items : List Sample)
    (hmulti : 1 < (items.map speakerOf).toFinset.card)
    (hhead : items.length - (items.map speakerOf).toFinset.card <
      min 500 (items.length / 100)) :
    split_dataset g fuel items = SplitResult.diverged := by
  have h0 : 0 < min 500 (items.length / 100) := by omega
  unfold split_dataset
  rw [if_pos h0, if_pos hmulti]
  have hfin : ((npShuffle g items).map speakerOf).toFinset =
      (items.map speakerOf).toFinset :=
    List.toFinset_eq_of_perm _ _ ((npShuffle_perm g items).map speakerOf)
  have hnone := evalLoop_none_of_headroom g fuel (items.length - 1)
    (npShuffle g items) []
    (fun s => List.count s ((npShuffle g items).map speakerOf))
    (min 500 (items.length / 100)) (fun _ => rfl)
    (by rw [npShuffle_length, hfin]; simpa using hhead)
  rw [hnone]

/-- C3 counterexample: a concrete 100-sample corpus with 100 distinct
speakers (eval target 1, headroom 0) on which `split_dataset` never
terminates — there is no safety bound and no diagnostic in the source;
the loop keeps drawing and rejecting forever. -/
theorem split_dataset_no_safety_bound_cex : divergesAlways hundredSpeakers := by
  intro g fuel
  exact split_dataset_diverges_of_headroom g fuel hundredSpeakers
    (by decide) (by decide)

/-- C3 (amended): when the eval target exceeds the attainable headroom on
a multi-speaker corpus, `split_dataset` does not terminate with a
diagnostic — it loops indefinitely (for every oracle and every fuel the
embedded loop is still running). -/
theorem split_dataset_unreachable_target_diverges (g : Nat → Nat) (fuel : Nat)
    (items : List Sample)
    (hmulti : 1 < (items.map speakerOf).toFinset.card)
    (hhead : items.length - (items.map speakerOf).toFinset.card <
      min 500 (items.length / 100)) :
    split_dataset g fuel items = SplitResult.diverged :=
  split_dataset_diverges_of_headroom g fuel items hmulti hhead

theorem split_dataset_unreachable_target_diverges_witness :
    1 < (hundredSpeakers.map speakerOf).toFinset.card ∧
      hundredSpeakers.length - (hundredSpeakers.map speakerOf).toFinset.card <
        min 500 (hundredSpeakers.length / 100) ∧
      split_dataset (fun _ => 0) 9 hundredSpeakers = SplitResult.diverged :=
  ⟨by decide, by decide,
    split_dataset_unreachable_target_diverges (fun _ => 0) 9 hundredSpeakers
      (by decide) (by decide)⟩

/-- C10: `split_dataset` mutates its argument in place.  On every call
that returns a split, the caller's list ends up shuffled (single-speaker
case: it holds the full shuffled list, of which the returned slices are
copies), and in the multi-speaker case the selected eval samples have
been deleted from it and the returned train list is that very list
(`callerItemsOf = trainItemsOf`), strictly shorter than the input: the
original ordering and contents of the passed-in list are not preserved. -/
theorem split_dataset_mutates_caller (g : Nat → Nat) (fuel : Nat)
    (items : List Sample)
    (hok : (split_dataset g fuel items).isOk = true) :
    (1 < (items.map speakerOf).toFinset.card →
      (split_dataset g fuel items).callerItemsOf =
        (split_dataset g fuel items).trainItemsOf ∧
      List.Sublist ((split_dataset g fuel items).trainItemsOf)
        (npShuffle g items) ∧
      (split_dataset g fuel items).evalItemsOf.length =
        min 500 (items.length / 100) ∧
      (split_dataset g fuel items).trainItemsOf.length +
        (split_dataset g fuel items).evalItemsOf.length = items.length ∧
      (split_dataset g fuel items).callerItemsOf.length < items.length) ∧
    (¬ 1 < (items.map speakerOf).toFinset.card →
      (split_dataset g fuel items).callerItemsOf = npShuffle g items) := by
  by_cases h0 : 0 < min 500 (items.length / 100)
  · by_cases hmulti : 1 < (items.map speakerOf).toFinset.card
    · cases hloop : evalLoop g fuel (items.length - 1) (npShuffle g items) []
          (fun s' => List.count s' ((npShuffle g items).map speakerOf))
          (min 500 (items.length / 100)) with
      | none =>
        have hres : split_dataset g fuel items = SplitResult.diverged := by
          unfold split_dataset
          rw [if_pos h0, if_pos hmulti, hloop]
        rw [hres] at hok
        exact Bool.noConfusion hok
      | some et =>
        have hres : split_dataset g fuel items = SplitResult.ok et.1 et.2 et.2 := by
          unfold split_dataset
          rw [if_pos h0, if_pos hmulti, hloop]
        obtain ⟨hlen, hsum, hsub⟩ := evalLoop_ok_shape g fuel (items.length - 1)
          (npShuffle g items) []
          (fun s' => List.count s' ((npShuffle g items).map speakerOf))
          (min 500 (items.length / 100)) et.1 et.2
          (fun _ => rfl) (by simp) (by rw [hloop])
        rw [npShuffle_length] at hsum
        simp only [List.length_nil, Nat.add_zero] at hsum
        rw [hres]
        simp only [SplitResult.callerItemsOf, SplitResult.trainItemsOf,
          SplitResult.evalItemsOf]
        constructor
        · intro _
          refine ⟨trivial, hsub, hlen, by omega, by omega⟩
        · intro hcontra
          exact absurd hmulti hcontra
    · have hres : split_dataset g fuel items =
          SplitResult.ok ((npShuffle g items).take (min 500 (items.length / 100)))
            ((npShuffle g items).drop (min 500 (items.length / 100)))
            (npShuffle g items) := by
        unfold split_dataset
        rw [if_pos h0, if_neg hmulti]
      rw [hres]
      simp only [SplitResult.callerItemsOf]
      exact ⟨fun hcontra => absurd hcontra hmulti, fun _ => trivial⟩
  · unfold split_dataset at hok
    rw [if_neg h0] at hok
    exact Bool.noConfusion hok

theorem split_dataset_mutates_caller_witness :
    (split_dataset (fun _ => 0) 5 twoSpeakerCorpus).isOk = true ∧
      (1 < (twoSpeakerCorpus.map speakerOf).toFinset.card →
        (split_dataset (fun _ => 0) 5 twoSpeakerCorpus).callerItemsOf =
          (split_dataset (fun _ => 0) 5 twoSpeakerCorpus).trainItemsOf ∧
        List.Sublist ((split_dataset (fun _ => 0) 5 twoSpeakerCorpus).trainItemsOf)
          (npShuffle (fun _ => 0) twoSpeakerCorpus) ∧
        (split_dataset (fun _ => 0) 5 twoSpeakerCorpus).evalItemsOf.length =
          min 500 (twoSpeakerCorpus.length / 100) ∧
        (split_dataset (fun _ => 0) 5 twoSpeakerCorpus).trainItemsOf.length +
          (split_dataset (fun _ => 0) 5 twoSpeakerCorpus).evalItemsOf.length =
          twoSpeakerCorpus.length ∧
        (split_dataset (fun _ => 0) 5 twoSpeakerCorpus).callerItemsOf.length <
          twoSpeakerCorpus.length) ∧
      (¬ 1 < (twoSpeakerCorpus.map speakerOf).toFinset.card →
        (split_dataset (fun _ => 0) 5 twoSpeakerCorpus).callerItemsOf =
          npShuffle (fun _ => 0) twoSpeakerCorpus) :=
  ⟨by decide, split_dataset_mutates_caller (fun _ => 0) 5 twoSpeakerCorpus (by decide)⟩

/-- C6: `load_tts_samples` cannot aggregate the two corpora.  The first
statement of its corpus loop subscript-assigns into `formatter_args`, a
name bound nowhere (the function initialises only `preprocessor_args`;
its docstring still carries an unresolved-merge marker `>>>>>>> dev`), so
the call on a config with two corpora raises
`NameError: name 'formatter_args' is not defined` before any corpus is
loaded, instead of returning the concatenated train lists. -/
theorem load_tts_samples_two_corpora_name_error :
    load_tts_samples twoCorpusConfig true =
      Except.error (PyError.nameError "formatter_args") := rfl

/-- C7: the attention-manifest loader itself parses
`"a.wav|a.attn\nb.wav|b.attn\n"` into the expected mapping (so the
attachment and KeyError behaviour the claim describes is the code's
intent), but `load_tts_samples` on a corpus declaring that manifest
raises `NameError` (undefined `formatter_args`) in its first loop
iteration, before any sample is loaded or any attention file attached. -/
theorem load_tts_samples_attn_key_name_error :
    load_attention_mask_meta_data "a.wav|a.attn\nb.wav|b.attn\n" =
      Except.ok [("a.wav", "a.attn\n"), ("b.wav", "b.attn\n")] ∧
    load_tts_samples attnMaskConfig true =
      Except.error (PyError.nameError "formatter_args") := ⟨rfl, rfl⟩

/-- C8: on a config whose second corpus declares an alignment-mask
manifest, `load_tts_samples` raises `NameError` (undefined
`formatter_args`) on the first corpus, never reaching the attention
step; moreover that step, as written, iterates over the whole accumulated
`meta_data_train_all`/`meta_data_eval_all` (samples of every corpus
processed so far), not only over the current corpus's samples. -/
theorem load_tts_samples_attn_frame_name_error :
    load_tts_samples twoCorpusAttnConfig true =
      Except.error (PyError.nameError "formatter_args") := rfl

/-- C9 counterexample: on the census input the reported lowercase subset
is not the claimed three-element set a, b, c — Python `str.islower` is
true for é, so é belongs to the reported lowercase subset as well. -/
theorem find_unique_chars_lower_cex :
    'é' ∈ (find_unique_chars censusSamples).2.1 ∧
      (find_unique_chars censusSamples).2.1 ≠ ({'a', 'b', 'c'} : Finset Char) := by
  exact ⟨by decide, by decide⟩

/-- C9 (amended): on first fields `"abcABC"` and `"é"` the census computes
the unique-character set a, b, c, A, B, C, é; the lowercase subset it
reports is a, b, c, é (é counts as lowercase for Python `str.islower`);
and the returned forced-to-lowercase set is a, b, c, é. -/
theorem find_unique_chars_census :
    find_unique_chars censusSamples =
      (({'a', 'b', 'c', 'A', 'B', 'C', 'é'} : Finset Char),
        ({'a', 'b', 'c', 'é'} : Finset Char),
        ({'a', 'b', 'c', 'é'} : Finset Char)) := by decide

end TTSData
